import Mathlib

/-!
Shallow embedding of the intraday price-level trading strategy
(`src/quantopian/algo/intraday_levels_algorithm.py`, with the duplicate
variant `src/algo/intraday_levels_algorithm.py` sharing the same logic).

Prices and portfolio quantities live in `Fl`, an exact model of the
floating-point values the code manipulates: `Fl.nan` models IEEE NaN and
`Fl.val q` a finite value, with comparisons against NaN returning `false`
as numpy does, and arithmetic propagating NaN.  Finite values are modelled
by rationals (exact arithmetic).
-/

/-- Model of a numpy floating-point scalar: either NaN or a finite value. -/
inductive Fl where
  | nan : Fl
  | val : ℚ → Fl
deriving DecidableEq

/-- numpy.isnan on a scalar. -/
def Fl.isnan : Fl → Bool
  | Fl.nan => true
  | Fl.val _ => false

/-- Comparison a >= b; any comparison with NaN is false, as in numpy. -/
def Fl.ge : Fl → Fl → Bool
  | Fl.val a, Fl.val b => decide (a ≥ b)
  | _, _ => false

/-- Comparison a <= b; any comparison with NaN is false. -/
def Fl.le : Fl → Fl → Bool
  | Fl.val a, Fl.val b => decide (a ≤ b)
  | _, _ => false

/-- Comparison a < b; any comparison with NaN is false. -/
def Fl.lt : Fl → Fl → Bool
  | Fl.val a, Fl.val b => decide (a < b)
  | _, _ => false

/-- Comparison a > b; any comparison with NaN is false. -/
def Fl.gt : Fl → Fl → Bool
  | Fl.val a, Fl.val b => decide (a > b)
  | _, _ => false

/-- numpy.nan_to_num on a scalar: NaN becomes 0, finite values unchanged. -/
def Fl.nan_to_num : Fl → Fl
  | Fl.nan => Fl.val 0
  | Fl.val a => Fl.val a

/-- Addition, propagating NaN. -/
def Fl.add : Fl → Fl → Fl
  | Fl.val a, Fl.val b => Fl.val (a + b)
  | _, _ => Fl.nan

/-- Subtraction, propagating NaN. -/
def Fl.sub : Fl → Fl → Fl
  | Fl.val a, Fl.val b => Fl.val (a - b)
  | _, _ => Fl.nan

/-- Multiplication, propagating NaN. -/
def Fl.mul : Fl → Fl → Fl
  | Fl.val a, Fl.val b => Fl.val (a * b)
  | _, _ => Fl.nan

/-- Binary minimum, propagating NaN (as numpy.ndarray.min does over NaN). -/
def Fl.min2 : Fl → Fl → Fl
  | Fl.val a, Fl.val b => Fl.val (min a b)
  | _, _ => Fl.nan

/-- Binary maximum, propagating NaN. -/
def Fl.max2 : Fl → Fl → Fl
  | Fl.val a, Fl.val b => Fl.val (max a b)
  | _, _ => Fl.nan

/-- ndarray.min() over a window (NaN if any element is NaN, as numpy). -/
def Fl.amin : List Fl → Fl
  | [] => Fl.nan
  | x :: xs => xs.foldl Fl.min2 x

/-- ndarray.max() over a window (NaN if any element is NaN, as numpy). -/
def Fl.amax : List Fl → Fl
  | [] => Fl.nan
  | x :: xs => xs.foldl Fl.max2 x

/-- ndarray.sum(), propagating NaN. -/
def Fl.asum (xs : List Fl) : Fl := xs.foldl Fl.add (Fl.val 0)

/-- Division of a scalar by a window length. -/
def Fl.divNat : Fl → ℕ → Fl
  | Fl.val a, n => Fl.val (a / (n : ℚ))
  | Fl.nan, _ => Fl.nan

/-- ndarray.mean() = sum / length, NaN if any element is NaN. -/
def Fl.mean (xs : List Fl) : Fl := Fl.divNat (Fl.asum xs) xs.length

/-- Python float modulo for a positive divisor: a - b * floor(a / b). -/
def qmod (a b : ℚ) : ℚ := a - b * ((Int.floor (a / b) : ℤ) : ℚ)

/-- Scalar % with a rational divisor, propagating NaN. -/
def Fl.fmod : Fl → ℚ → Fl
  | Fl.val a, b => Fl.val (qmod a b)
  | Fl.nan, _ => Fl.nan

/-!
Algorithm constants of `src/quantopian/algo/intraday_levels_algorithm.py`
(lines 26-39).  The duplicate variant differs only in `position_amount`
(500) and in lacking the risk manager.
-/

/-- Minimum daily trend streak for a security to become a candidate. -/
def daily_trend_strength : ℚ := 2

/-- Fast intraday window length in minutes. -/
def intraday_trend_fast : ℕ := 10

/-- Slow intraday window length in minutes. -/
def intraday_trend_slow : ℕ := 30

/-- Tolerance in cents around a 25-cent level. -/
def intraday_cents_to_level : ℚ := 2

/-- Share count per position (quantopian variant). -/
def position_amount : ℤ := 100

/-- Stop loss size in dollars. -/
def stop_size : ℚ := 5 / 100

/-- Profit target in dollars. -/
def target_profit : ℚ := 20 / 100

/-- Offset from the window extreme for the limit price, in dollars. -/
def cents_to_market : ℚ := 2 / 100

/-- Daily loss cap in dollars. -/
def daily_risk : ℚ := 100

/-- Market-data snapshot for one tradable security: its sid, whether
`data.can_trade` holds, and the four history windows the traders query
(`data.history(security, field, bars, "1m")` for field low/high and
bars 10/30), most recent bar last. -/
structure Security where
  sid : ℕ
  can_trade : Bool
  low_fast : List Fl
  low_slow : List Fl
  high_fast : List Fl
  high_slow : List Fl
deriving DecidableEq

/-- Portfolio position as exposed by the framework: signed share amount,
cost basis and last sale price. -/
structure Position where
  sid : ℕ
  amount : ℤ
  cost_basis : ℚ
  last_sale_price : ℚ
deriving DecidableEq

/-- An order_target submission: security, target share count, and the
limit price when submitted with LimitOrder style. -/
structure Order where
  sid : ℕ
  target : ℤ
  limit : Option Fl
deriving DecidableEq

/-- Embeds `LongTrader.filter_securities` (quantopian lines 232-272), the
per-security accept decision: skip when not tradable; skip on NaN in the
fast window (the source tests the fast window twice, so a NaN that is
only in the slow window is not caught here); skip when the fast SMA is
below the slow SMA; skip when the window minimum is more than
`intraday_cents_to_level` cents above the nearest lower 25-cent level;
skip when some price is more than that many cents above the minimum. -/
def LongTrader.filter_accepts (s : Security) : Bool :=
  if !s.can_trade then false
  else
    let data_history_fast := s.low_fast
    let data_history_slow := s.low_slow
    if data_history_fast.any Fl.isnan || data_history_fast.any Fl.isnan then false
    else
      let sma_fast := Fl.mean data_history_fast
      let sma_slow := Fl.mean data_history_slow
      if Fl.lt sma_fast sma_slow then false
      else
        let prices := data_history_fast
        let min_price := Fl.amin prices
        let cents_to_level := Fl.fmod (Fl.mul (Fl.val 100) min_price) 25
        if Fl.gt cents_to_level (Fl.val intraday_cents_to_level) then false
        else
          let difference_to_minimum :=
            List.map (fun p => Fl.mul (Fl.sub p min_price) (Fl.val 100)) prices
          if Fl.gt (Fl.amax difference_to_minimum) (Fl.val intraday_cents_to_level) then false
          else true

/-- Embeds the list version of `LongTrader.filter_securities`. -/
def LongTrader.filter_securities (securities : List Security) : List Security :=
  securities.filter LongTrader.filter_accepts

/-- Embeds `ShortTrader.filter_securities` (quantopian lines 331-371):
identical shape on the high windows, with the reversed SMA test, and with
`cents_to_level = 100 - (100 * max_price) % 25` and the final check
`100 - difference_to_minimum.max() > intraday_cents_to_level`, exactly as
in the source. -/
def ShortTrader.filter_accepts (s : Security) : Bool :=
  if !s.can_trade then false
  else
    let data_history_fast := s.high_fast
    let data_history_slow := s.high_slow
    if data_history_fast.any Fl.isnan || data_history_fast.any Fl.isnan then false
    else
      let sma_fast := Fl.mean data_history_fast
      let sma_slow := Fl.mean data_history_slow
      if Fl.gt sma_fast sma_slow then false
      else
        let prices := data_history_fast
        let max_price := Fl.amax prices
        let cents_to_level := Fl.sub (Fl.val 100) (Fl.fmod (Fl.mul (Fl.val 100) max_price) 25)
        if Fl.gt cents_to_level (Fl.val intraday_cents_to_level) then false
        else
          let difference_to_minimum :=
            List.map (fun p => Fl.mul (Fl.sub p max_price) (Fl.val 100)) prices
          if Fl.gt (Fl.sub (Fl.val 100) (Fl.amax difference_to_minimum))
              (Fl.val intraday_cents_to_level) then false
          else true

/-- Embeds the list version of `ShortTrader.filter_securities`. -/
def ShortTrader.filter_securities (securities : List Security) : List Security :=
  securities.filter ShortTrader.filter_accepts

/-- Sids currently held in the portfolio (`portfolio.positions.keys()`). -/
def posSids (positions : List Position) : List ℕ :=
  positions.map Position.sid

/-- Embeds `LongTrader.open` (quantopian lines 196-216): drop securities
already held, filter, then for each survivor compute the limit price
`min(low fast window) + cents_to_market`, skip when
`price * position_amount > cash`, and submit
`order_target(security, position_amount, LimitOrder(price))`. -/
def LongTrader.openOrders (securities : List Security) (positions : List Position)
    (cash : ℚ) : List Order :=
  let remaining := securities.filter (fun s => !(posSids positions).contains s.sid)
  let filtered := LongTrader.filter_securities remaining
  filtered.filterMap (fun security =>
    if (posSids positions).contains security.sid then none
    else
      let price := Fl.add (Fl.amin security.low_fast) (Fl.val cents_to_market)
      if Fl.gt (Fl.mul price (Fl.val ((position_amount : ℤ) : ℚ))) (Fl.val cash) then none
      else some (Order.mk security.sid position_amount (some price)))

/-- Embeds `LongTrader.close` (quantopian lines 218-230) as the decision
for one position: positions with negative amount are skipped; otherwise
the position is flattened iff the last sale price is at or below
`cost_basis - stop_size` or at or above `cost_basis + target_profit`. -/
def LongTrader.closeFires (position : Position) : Bool :=
  if position.amount < 0 then false
  else
    let stop_price := position.cost_basis - stop_size
    let target_price := position.cost_basis + target_profit
    decide (position.last_sale_price ≤ stop_price) ||
      decide (position.last_sale_price ≥ target_price)

/-- Orders submitted by `LongTrader.close`: `order_target(sid, 0)` for
every position whose close condition fires. -/
def LongTrader.closeOrders (positions : List Position) : List Order :=
  (positions.filter LongTrader.closeFires).map (fun p => Order.mk p.sid 0 none)

/-- Embeds `LongTrader.trade` (quantopian lines 190-194): `open` runs
first and only when `can_trade`, then `close` runs unconditionally; the
result is the order-submission sequence of the tick. -/
def LongTrader.trade (securities : List Security) (positions : List Position)
    (cash : ℚ) (can_trade : Bool) : List Order :=
  (if can_trade then LongTrader.openOrders securities positions cash else []) ++
    LongTrader.closeOrders positions

/-- Embeds `ShortTrader.open` (quantopian lines 294-315): limit price
`max(high fast window) - cents_to_market`, target `-position_amount`. -/
def ShortTrader.openOrders (securities : List Security) (positions : List Position)
    (cash : ℚ) : List Order :=
  let remaining := securities.filter (fun s => !(posSids positions).contains s.sid)
  let filtered := ShortTrader.filter_securities remaining
  filtered.filterMap (fun security =>
    if (posSids positions).contains security.sid then none
    else
      let price := Fl.sub (Fl.amax security.high_fast) (Fl.val cents_to_market)
      if Fl.gt (Fl.mul price (Fl.val ((position_amount : ℤ) : ℚ))) (Fl.val cash) then none
      else some (Order.mk security.sid (-position_amount) (some price)))

/-- Embeds `ShortTrader.close` (quantopian lines 317-329): positions with
positive amount are skipped; a short is flattened iff the last sale price
is at or above `cost_basis + stop_size` or at or below
`cost_basis - target_profit`. -/
def ShortTrader.closeFires (position : Position) : Bool :=
  if position.amount > 0 then false
  else
    let stop_price := position.cost_basis + stop_size
    let target_price := position.cost_basis - target_profit
    decide (position.last_sale_price ≥ stop_price) ||
      decide (position.last_sale_price ≤ target_price)

/-- Orders submitted by `ShortTrader.close`. -/
def ShortTrader.closeOrders (positions : List Position) : List Order :=
  (positions.filter ShortTrader.closeFires).map (fun p => Order.mk p.sid 0 none)

/-- Embeds `ShortTrader.trade` (quantopian lines 288-292), same shape as
`LongTrader.trade`. -/
def ShortTrader.trade (securities : List Security) (positions : List Position)
    (cash : ℚ) (can_trade : Bool) : List Order :=
  (if can_trade then ShortTrader.openOrders securities positions cash else []) ++
    ShortTrader.closeOrders positions

/-- Embeds `RiskManager` state (quantopian lines 374-392): the pnl
snapshot taken at start of day and the configured daily loss cap. -/
structure RiskManager where
  previous_day_risk : ℚ
  daily_risk : ℚ
deriving DecidableEq

/-- Embeds `RiskManager.get_risk`: today's pnl change,
`portfolio.pnl - previous_day_risk`; `pnl` is the current portfolio pnl. -/
def RiskManager.get_risk (rm : RiskManager) (pnl : ℚ) : ℚ :=
  pnl - rm.previous_day_risk

/-- Embeds `RiskManager.can_trade`: `get_risk() > -daily_risk`. -/
def RiskManager.can_trade (rm : RiskManager) (pnl : ℚ) : Bool :=
  decide (RiskManager.get_risk rm pnl > -rm.daily_risk)

/-- Embeds `RiskManager.process_end_trade_day`, invoked from
`before_trading_start` (line 129): snapshots the current portfolio pnl
into `previous_day_risk`. -/
def RiskManager.process_end_trade_day (rm : RiskManager) (pnl : ℚ) : RiskManager :=
  RiskManager.mk pnl rm.daily_risk

/-- Pipeline window length of `TrendFactor` (source line 400). -/
def TrendFactor.window_length : ℕ := 15

/-- Comparison driving the long streak at loop index `i` (source line
411): `numpy.greater_equal(low[-i], low[-i - 1])`, where a negative numpy
index `-i` addresses element `length - i`. -/
def lowCmp (low : List Fl) (i : ℕ) : Bool :=
  Fl.ge (low.getD (low.length - i) Fl.nan) (low.getD (low.length - i - 1) Fl.nan)

/-- Comparison driving the short streak at loop index `i` (source line
420): `numpy.less_equal(high[-i], high[-i - 1])`. -/
def highCmp (high : List Fl) (i : ℕ) : Bool :=
  Fl.le (high.getD (high.length - i) Fl.nan) (high.getD (high.length - i - 1) Fl.nan)

/-- Embeds the `while i > 0` loop of `TrendFactor.compute` (source lines
409-423) for one streak accumulator: at index `i` the accumulator is
incremented when the comparison holds and reset to 0 otherwise, and `i`
is decremented; the loop starts at `window_length - 1`. -/
def trendLoop (cmp : ℕ → Bool) : ℕ → Fl → Fl
  | 0, acc => acc
  | i + 1, acc =>
      trendLoop cmp i (if cmp (i + 1) then Fl.add acc (Fl.val 1) else Fl.val 0)

/-- Embeds `TrendFactor.compute` (quantopian lines 402-423) for a single
asset: both output accumulators are first passed through
`numpy.nan_to_num`, then the loop runs from `i = window_length - 1` down
to `1`, the long streak driven by `low[-i] >= low[-i-1]` and the short
streak by `high[-i] <= high[-i-1]`.  Returns `(out.long, out.short)`. -/
def TrendFactor.compute (high low : List Fl) (outLong outShort : Fl) : Fl × Fl :=
  (trendLoop (lowCmp low) (TrendFactor.window_length - 1) (Fl.nan_to_num outLong),
   trendLoop (highCmp high) (TrendFactor.window_length - 1) (Fl.nan_to_num outShort))

/-- Embeds the long-trader wiring of `before_trading_start` (quantopian
line 122): `context.long_trader = LongTrader(context, data, long_secs)`,
so the long candidates tick with `LongTrader.trade`. -/
def before_trading_start_long_trader (securities : List Security)
    (positions : List Position) (cash : ℚ) (can_trade : Bool) : List Order :=
  LongTrader.trade securities positions cash can_trade

/-- Embeds the short-trader wiring of `before_trading_start` (quantopian
line 126, identically `src/algo` line 122):
`context.short_trader = LongTrader(context, data, short_secs)` — the
short candidates are also handed to a `LongTrader`, so they tick with
`LongTrader.trade` as well. -/
def before_trading_start_short_trader (securities : List Security)
    (positions : List Position) (cash : ℚ) (can_trade : Bool) : List Order :=
  LongTrader.trade securities positions cash can_trade

/-- Per-minute state visible to `handle_data`: orders still open from
previous ticks, the portfolio, and the two candidate lists built by
`before_trading_start` together with the risk manager. -/
structure AlgoState where
  open_orders : List Order
  positions : List Position
  cash : ℚ
  pnl : ℚ
  long_secs : List Security
  short_secs : List Security
  risk : RiskManager
deriving DecidableEq

/-- Observable actions of one `handle_data` tick, in submission order. -/
inductive Event where
  | cancel : Order → Event
  | submit : Order → Event
deriving DecidableEq

/-- Embeds `handle_data` (quantopian lines 159-174): first every open
order is cancelled, then the long trader trades, then the short trader
(which `before_trading_start` wired to `LongTrader`) trades, both gated
by `risk_manager.can_trade()`.  Returns the post-tick state (open orders
are now exactly this tick's submissions) and the event trace. -/
def handle_data (st : AlgoState) : AlgoState × List Event :=
  let cancels := st.open_orders.map Event.cancel
  let st0 := { st with open_orders := ([] : List Order) }
  let longOrders :=
    before_trading_start_long_trader st0.long_secs st0.positions st0.cash
      (RiskManager.can_trade st0.risk st0.pnl)
  let shortOrders :=
    before_trading_start_short_trader st0.short_secs st0.positions st0.cash
      (RiskManager.can_trade st0.risk st0.pnl)
  ({ st0 with open_orders := longOrders ++ shortOrders },
   cancels ++ longOrders.map Event.submit ++ shortOrders.map Event.submit)

/-!
Concrete fixtures used to instantiate the theorems below.
-/

/-- Price 10.25, exactly on a 25-cent level. -/
def qLevel : ℚ := 41 / 4

/-- Price 10.28, three cents away from every 25-cent level. -/
def qOff3 : ℚ := 257 / 25

/-- Security 1: every history window pinned at 10.25, tradable. -/
def secLevel : Security :=
  Security.mk 1 true
    (List.replicate 10 (Fl.val qLevel)) (List.replicate 30 (Fl.val qLevel))
    (List.replicate 10 (Fl.val qLevel)) (List.replicate 30 (Fl.val qLevel))

/-- Security 4: every history window pinned at 10.28, tradable. -/
def secOff3 : Security :=
  Security.mk 4 true
    (List.replicate 10 (Fl.val qOff3)) (List.replicate 30 (Fl.val qOff3))
    (List.replicate 10 (Fl.val qOff3)) (List.replicate 30 (Fl.val qOff3))

/-- Security 3: fast low window NaN-free at 10.25, slow low window with a
NaN in its oldest bar. -/
def secSlowNan : Security :=
  Security.mk 3 true
    (List.replicate 10 (Fl.val qLevel)) (Fl.nan :: List.replicate 29 (Fl.val qLevel))
    (List.replicate 10 (Fl.val qLevel)) (List.replicate 30 (Fl.val qLevel))

/-- Security 5: fast low window containing a NaN. -/
def secFastNan : Security :=
  Security.mk 5 true
    (Fl.nan :: List.replicate 9 (Fl.val qLevel)) (List.replicate 30 (Fl.val qLevel))
    (List.replicate 10 (Fl.val qLevel)) (List.replicate 30 (Fl.val qLevel))

/-- A long position of 100 shares at cost basis 10.00 whose last price
9.90 is below the stop 9.95. -/
def posStop : Position := Position.mk 2 100 10 (99 / 10)

/-- A long position of 100 shares at cost basis 10.00 with last price
exactly 9.95. -/
def posAt995 : Position := Position.mk 7 100 10 (199 / 20)

/-- A tick state whose day pnl change is exactly -100, the daily risk
cap, so the risk manager halts trading. -/
def stHalted : AlgoState :=
  AlgoState.mk [] [posStop] 100000 (-100) [secLevel] [secLevel] (RiskManager.mk 0 100)

/-- A 15-bar high window at constant price 1. -/
def highConst : List Fl := List.replicate 15 (Fl.val 1)

/-- A 15-bar low window with a NaN at index 1 and otherwise strictly
increasing: 1, NaN, 2, 3, ..., 14. -/
def lowWithNan : List Fl :=
  [Fl.val 1, Fl.nan, Fl.val 2, Fl.val 3, Fl.val 4, Fl.val 5, Fl.val 6, Fl.val 7,
   Fl.val 8, Fl.val 9, Fl.val 10, Fl.val 11, Fl.val 12, Fl.val 13, Fl.val 14]

/-- A strictly increasing 15-bar low sequence. -/
def qsInc : List ℚ := [1, 2, 3, 4, 5, 6, 7, 8, 9, 10, 11, 12, 13, 14, 15]

/-- A 15-bar low sequence whose only decrease is at its oldest adjacent
pair. -/
def qsDec : List ℚ := [10, 9, 10, 11, 12, 13, 14, 15, 16, 17, 18, 19, 20, 21, 22]

/-- When every comparison in range holds, each loop step increments. -/
theorem trendLoop_all_true (cmp : ℕ → Bool) :
    ∀ (i : ℕ) (a : ℚ), (∀ j, 1 ≤ j → j ≤ i → cmp j = true) →
      trendLoop cmp i (Fl.val a) = Fl.val (a + i)
  | 0, a, _ => by simp [trendLoop]
  | i + 1, a, h => by
      have hc : cmp (i + 1) = true := h (i + 1) (by omega) (by omega)
      have ih := trendLoop_all_true cmp i (a + 1) (fun j hj1 hji => h j hj1 (by omega))
      simp only [trendLoop, hc, if_true, Fl.add, ih]
      congr 1
      push_cast
      ring

/-- The loop keeps the accumulator a finite value. -/
theorem trendLoop_val (cmp : ℕ → Bool) :
    ∀ (i : ℕ) (a : ℚ), ∃ b, trendLoop cmp i (Fl.val a) = Fl.val b
  | 0, a => ⟨a, rfl⟩
  | i + 1, a => by
      cases hc : cmp (i + 1) with
      | true =>
          obtain ⟨b, hb⟩ := trendLoop_val cmp i (a + 1)
          exact ⟨b, by simp only [trendLoop, hc, if_true, Fl.add]; exact hb⟩
      | false =>
          obtain ⟨b, hb⟩ := trendLoop_val cmp i 0
          exact ⟨b, by simp only [trendLoop, hc, if_false]; exact hb⟩

/-- If the comparison fails at index j and holds below j, the loop result
from any start at or above j is j - 1, whatever the accumulator held. -/
theorem trendLoop_reset (cmp : ℕ → Bool) (j : ℕ) (h1 : 1 ≤ j) (hj : cmp j = false)
    (hlt : ∀ i, 1 ≤ i → i < j → cmp i = true) :
    ∀ (d : ℕ) (acc : Fl), trendLoop cmp (j + d) acc = Fl.val ((j - 1 : ℕ) : ℚ)
  | 0, acc => by
      obtain ⟨m, rfl⟩ : ∃ m, j = m + 1 := ⟨j - 1, by omega⟩
      have step : trendLoop cmp (m + 1 + 0) acc = trendLoop cmp m (Fl.val 0) := by
        simp only [Nat.add_zero, trendLoop, hj]
        simp
      rw [step, trendLoop_all_true cmp m 0 (fun i hi1 him => hlt i hi1 (by omega))]
      simp
  | d + 1, acc => by
      have step : trendLoop cmp (j + (d + 1)) acc
          = trendLoop cmp (j + d)
              (if cmp (j + d + 1) then Fl.add acc (Fl.val 1) else Fl.val 0) := by
        show trendLoop cmp ((j + d) + 1) acc = _
        simp only [trendLoop]
      rw [step, trendLoop_reset cmp j h1 hj hlt d _]

/-- getD over a mapped list of finite values. -/
theorem getD_map_val : ∀ (l : List ℚ) (n : ℕ), n < l.length →
      (l.map Fl.val).getD n Fl.nan = Fl.val (l.getD n 0)
  | [], n, h => by simp at h
  | q :: l, 0, _ => rfl
  | q :: l, n + 1, h => by
      simpa using getD_map_val l n (by simpa using h)

/-- Characterisation of the long-streak comparison on a NaN-free window. -/
theorem lowCmp_map (qs : List ℚ) (h15 : qs.length = 15) (i : ℕ) (h1 : 1 ≤ i) (h14 : i ≤ 14) :
    lowCmp (qs.map Fl.val) i = decide (qs.getD (15 - i) 0 ≥ qs.getD (15 - i - 1) 0) := by
  unfold lowCmp
  rw [List.length_map, h15]
  rw [getD_map_val qs (15 - i) (by omega), getD_map_val qs (15 - i - 1) (by omega)]
  rfl

/-- C4: for every NaN-free strictly increasing low sequence of length 15
fed to TrendFactor, the resulting long streak is 14; and when a strict
decrease exists, with `j` the loop index of the last chronological
decrease (every later adjacent pair non-decreasing), the final streak is
`j - 1`, the number of bars after that decrease — the streak having been
reset to 0 at that step. -/
theorem trendFactor_streaks_C4 (qs : List ℚ) (high : List Fl) (h15 : qs.length = 15) :
    ((∀ k, k + 1 < 15 → qs.getD k 0 < qs.getD (k + 1) 0) →
        (TrendFactor.compute high (qs.map Fl.val) Fl.nan Fl.nan).1 = Fl.val 14)
    ∧ (∀ j, 1 ≤ j → j ≤ 14 →
        qs.getD (15 - j) 0 < qs.getD (15 - j - 1) 0 →
        (∀ i, 1 ≤ i → i < j → qs.getD (15 - i - 1) 0 ≤ qs.getD (15 - i) 0) →
        (TrendFactor.compute high (qs.map Fl.val) Fl.nan Fl.nan).1
          = Fl.val ((j - 1 : ℕ) : ℚ)) := by
  have hfst : (TrendFactor.compute high (qs.map Fl.val) Fl.nan Fl.nan).1
      = trendLoop (lowCmp (qs.map Fl.val)) 14 (Fl.val 0) := rfl
  constructor
  · intro hinc
    rw [hfst, trendLoop_all_true (lowCmp (qs.map Fl.val)) 14 0 ?_]
    · norm_num
    · intro i hi1 hi14
      rw [lowCmp_map qs h15 i hi1 hi14]
      have hk : 15 - i - 1 + 1 = 15 - i := by omega
      have := hinc (15 - i - 1) (by omega)
      rw [hk] at this
      simp only [ge_iff_le, decide_eq_true_eq]
      exact le_of_lt this
  · intro j hj1 hj14 hdec hmono
    have hd : 14 = j + (14 - j) := by omega
    rw [hfst, hd, trendLoop_reset (lowCmp (qs.map Fl.val)) j hj1 ?_ ?_ (14 - j) (Fl.val 0)]
    · rw [lowCmp_map qs h15 j hj1 hj14]
      simp only [ge_iff_le, decide_eq_false_iff_not]
      exact not_le.mpr hdec
    · intro i hi1 hij
      rw [lowCmp_map qs h15 i hi1 (by omega)]
      simp only [ge_iff_le, decide_eq_true_eq]
      exact hmono i hi1 hij

/-- Witness for C4 at the concrete windows `qsInc` (strictly increasing,
streak 14) and `qsDec` (single decrease at the oldest pair, streak 13). -/
theorem trendFactor_streaks_C4_witness :
    (TrendFactor.compute highConst (qsInc.map Fl.val) Fl.nan Fl.nan).1 = Fl.val 14
    ∧ (TrendFactor.compute highConst (qsDec.map Fl.val) Fl.nan Fl.nan).1 = Fl.val 13 := by
  constructor
  · exact (trendFactor_streaks_C4 qsInc highConst (by norm_num [qsInc])).1
      (by
        intro k hk
        have hk2 : k ≤ 13 := by omega
        interval_cases k <;> norm_num [qsInc])
  · have h := (trendFactor_streaks_C4 qsDec highConst (by norm_num [qsDec])).2 14
      (by norm_num) (by norm_num) (by norm_num [qsDec])
      (by
        intro i hi1 hij
        have hij2 : i ≤ 13 := by omega
        interval_cases i <;> norm_num [qsDec])
    norm_num at h
    exact h

/-- C9 (amended): in TrendFactor the NaN coercion applies to the output
accumulators, not to the input prices: the outputs never contain NaN,
the computation is unchanged by pre-coercing the accumulators, and any
streak comparison touching a NaN input price is false (resetting the
streak) rather than treating the NaN as 0. -/
theorem trendFactor_nan_C9 (high low : List Fl) (outLong outShort : Fl) :
    (TrendFactor.compute high low outLong outShort).1.isnan = false
    ∧ (TrendFactor.compute high low outLong outShort).2.isnan = false
    ∧ TrendFactor.compute high low outLong outShort
        = TrendFactor.compute high low (Fl.nan_to_num outLong) (Fl.nan_to_num outShort)
    ∧ (∀ i, (low.getD (low.length - i) Fl.nan).isnan = true → lowCmp low i = false)
    ∧ (∀ i, (low.getD (low.length - i - 1) Fl.nan).isnan = true → lowCmp low i = false) := by
  have hval : ∀ x : Fl, ∃ a : ℚ, Fl.nan_to_num x = Fl.val a := by
    intro x
    cases x with
    | nan => exact ⟨0, rfl⟩
    | val a => exact ⟨a, rfl⟩
  have hidem : ∀ x : Fl, Fl.nan_to_num (Fl.nan_to_num x) = Fl.nan_to_num x := by
    intro x
    cases x <;> rfl
  refine ⟨?_, ?_, ?_, ?_, ?_⟩
  · obtain ⟨a, ha⟩ := hval outLong
    obtain ⟨b, hb⟩ := trendLoop_val (lowCmp low) (TrendFactor.window_length - 1) a
    show (trendLoop (lowCmp low) (TrendFactor.window_length - 1) (Fl.nan_to_num outLong)).isnan
      = false
    rw [ha, hb]
    rfl
  · obtain ⟨a, ha⟩ := hval outShort
    obtain ⟨b, hb⟩ := trendLoop_val (highCmp high) (TrendFactor.window_length - 1) a
    show (trendLoop (highCmp high) (TrendFactor.window_length - 1) (Fl.nan_to_num outShort)).isnan
      = false
    rw [ha, hb]
    rfl
  · unfold TrendFactor.compute
    rw [hidem, hidem]
  · intro i hnan
    unfold lowCmp
    cases hx : low.getD (low.length - i) Fl.nan with
    | nan => cases low.getD (low.length - i - 1) Fl.nan <;> rfl
    | val a => rw [hx] at hnan; exact absurd hnan (by simp [Fl.isnan])
  · intro i hnan
    unfold lowCmp
    cases hx : low.getD (low.length - i - 1) Fl.nan with
    | nan => cases low.getD (low.length - i) Fl.nan <;> rfl
    | val a => rw [hx] at hnan; exact absurd hnan (by simp [Fl.isnan])

/-- Witness for C9 at a concrete window with a NaN low price. -/
theorem trendFactor_nan_C9_witness :
    (TrendFactor.compute highConst lowWithNan Fl.nan Fl.nan).1.isnan = false
    ∧ lowCmp lowWithNan 14 = false :=
  ⟨(trendFactor_nan_C9 highConst lowWithNan Fl.nan Fl.nan).1,
   (trendFactor_nan_C9 highConst lowWithNan Fl.nan Fl.nan).2.2.2.1 14
     (by norm_num [lowWithNan, Fl.isnan, List.getD])⟩

/-- Counterexample to C9 as stated: on the window 1, NaN, 2, ..., 14 the
computed long streak (12) differs from the streak of the same window with
the NaN replaced by 0 (13). -/
theorem trendFactor_nan_C9_counterexample :
    (TrendFactor.compute highConst lowWithNan Fl.nan Fl.nan).1
      ≠ (TrendFactor.compute highConst (lowWithNan.map Fl.nan_to_num) Fl.nan Fl.nan).1 := by
  norm_num [TrendFactor.compute, TrendFactor.window_length, trendLoop, lowCmp, highCmp,
    lowWithNan, highConst, Fl.nan_to_num, Fl.ge, Fl.le, Fl.add, List.getD]

/-- C1: a 10-bar window of identical prices exactly at the 25-cent level
10.25 passes the long filter but is rejected by the short filter (whose
`cents_to_level = 100 - (100 * max) mod 25` is 100 there), refuting the
short half of the claim; and a window pinned 3 cents off every level
(10.28) is rejected on both sides. -/
theorem level_filter_C1 :
    LongTrader.filter_accepts secLevel = true
    ∧ ShortTrader.filter_accepts secLevel = false
    ∧ LongTrader.filter_accepts secOff3 = false
    ∧ ShortTrader.filter_accepts secOff3 = false := by
  refine ⟨?_, ?_, ?_, ?_⟩ <;>
    norm_num [LongTrader.filter_accepts, ShortTrader.filter_accepts, secLevel, secOff3,
      qLevel, qOff3, Fl.mean, Fl.asum, Fl.divNat, Fl.amin, Fl.amax, Fl.min2, Fl.max2,
      Fl.add, Fl.sub, Fl.mul, Fl.fmod, qmod, Fl.gt, Fl.lt, Fl.ge, Fl.isnan,
      List.replicate, intraday_cents_to_level]

/-- C2: a short candidate that passes the (long) filters with no position
is traded by the short trader wired in `before_trading_start`, which
submits a limit BUY of +100 shares at `min(low window) + cents_to_market`
= 10.27 — long-side logic — while the actual short-side open logic would
submit nothing for the same candidate. -/
theorem short_wiring_C2 :
    before_trading_start_short_trader [secLevel] [] 100000 true
        = [Order.mk 1 100 (some (Fl.val (1027 / 100)))]
    ∧ ShortTrader.trade [secLevel] [] 100000 true = [] := by
  constructor
  · norm_num [before_trading_start_short_trader, LongTrader.trade, LongTrader.openOrders,
      LongTrader.filter_securities, LongTrader.filter_accepts, LongTrader.closeOrders,
      posSids, secLevel, qLevel, Fl.mean, Fl.asum, Fl.divNat,
      Fl.amin, Fl.amax, Fl.min2, Fl.max2, Fl.add, Fl.sub, Fl.mul, Fl.fmod, qmod,
      Fl.gt, Fl.lt, Fl.ge, Fl.isnan, List.replicate, intraday_cents_to_level,
      cents_to_market, position_amount, List.filterMap]
  · have hfa : ShortTrader.filter_accepts secLevel = false := by
      norm_num [ShortTrader.filter_accepts, secLevel, qLevel, Fl.mean, Fl.asum, Fl.divNat,
        Fl.amin, Fl.amax, Fl.min2, Fl.max2, Fl.add, Fl.sub, Fl.mul, Fl.fmod, qmod,
        Fl.gt, Fl.lt, Fl.ge, Fl.isnan, List.replicate, intraday_cents_to_level]
    simp [ShortTrader.trade, ShortTrader.openOrders, ShortTrader.filter_securities,
      ShortTrader.closeOrders, posSids, List.filter, hfa]

/-- C3 (amended): on every tick the trader attempts to open new positions
before it evaluates close conditions; the per-tick trade step is the
composition close-after-open for both trader classes. -/
theorem trade_phase_order_C3 (securities : List Security) (positions : List Position)
    (cash : ℚ) :
    LongTrader.trade securities positions cash true
        = LongTrader.openOrders securities positions cash ++ LongTrader.closeOrders positions
    ∧ ShortTrader.trade securities positions cash true
        = ShortTrader.openOrders securities positions cash
            ++ ShortTrader.closeOrders positions :=
  ⟨rfl, rfl⟩

/-- Counterexample to C3 as stated: at a state with one acceptable
candidate and one closable position, the tick's order sequence is not the
close-before-open composition. -/
theorem trade_phase_order_C3_counterexample :
    LongTrader.trade [secLevel] [posStop] 100000 true
      ≠ LongTrader.closeOrders [posStop] ++ LongTrader.openOrders [secLevel] [posStop] 100000 := by
  norm_num [LongTrader.trade, LongTrader.openOrders, LongTrader.filter_securities,
    LongTrader.filter_accepts, LongTrader.closeOrders, LongTrader.closeFires,
    posSids, secLevel, posStop, qLevel, Fl.mean, Fl.asum, Fl.divNat,
    Fl.amin, Fl.amax, Fl.min2, Fl.max2, Fl.add, Fl.sub, Fl.mul, Fl.fmod, qmod,
    Fl.gt, Fl.lt, Fl.ge, Fl.isnan, List.replicate, intraday_cents_to_level,
    cents_to_market, position_amount, stop_size, target_profit, List.filterMap, List.filter]

/-- C5: the risk manager reports HALTED (can_trade false) iff
`current_pnl - previous_day_pnl <= -daily_risk_limit`, and the start-of-day
snapshot sets `previous_day_pnl` to the current portfolio pnl; in
particular it halts exactly at the limit and never while the day's drop
is strictly smaller. -/
theorem risk_halt_C5 (rm : RiskManager) (pnl : ℚ) :
    (RiskManager.can_trade rm pnl = false ↔ pnl - rm.previous_day_risk ≤ -rm.daily_risk)
    ∧ (RiskManager.process_end_trade_day rm pnl).previous_day_risk = pnl := by
  constructor
  · simp [RiskManager.can_trade, RiskManager.get_risk, not_lt]
  · rfl

/-- C6: on a tick where the risk manager reports HALTED, the trade step
submits no opening order — the open phase is skipped entirely for both
traders — while the close conditions of the existing positions are still
evaluated and their flatten orders submitted. -/
theorem halted_close_only_C6 (st : AlgoState)
    (h : RiskManager.can_trade st.risk st.pnl = false) :
    (handle_data st).2
      = st.open_orders.map Event.cancel
        ++ (LongTrader.closeOrders st.positions).map Event.submit
        ++ (LongTrader.closeOrders st.positions).map Event.submit := by
  simp [handle_data, before_trading_start_long_trader, before_trading_start_short_trader,
    LongTrader.trade, h]

/-- Witness for C6 at a concrete halted state (day pnl change -100). -/
theorem halted_close_only_C6_witness :
    RiskManager.can_trade stHalted.risk stHalted.pnl = false
    ∧ (handle_data stHalted).2
        = stHalted.open_orders.map Event.cancel
          ++ (LongTrader.closeOrders stHalted.positions).map Event.submit
          ++ (LongTrader.closeOrders stHalted.positions).map Event.submit := by
  refine ⟨?_, halted_close_only_C6 stHalted ?_⟩ <;>
    norm_num [RiskManager.can_trade, RiskManager.get_risk, stHalted]

/-- C7: a NaN in the fast window does exclude a security, but because the
source tests the fast window twice in its `isnan` check, a security whose
slow window contains a NaN (fast window clean) is NOT excluded: it passes
the filter, refuting the claim for the slow window. -/
theorem nan_skip_C7 :
    secSlowNan.low_slow.any Fl.isnan = true
    ∧ LongTrader.filter_accepts secSlowNan = true
    ∧ LongTrader.filter_accepts secFastNan = false := by
  refine ⟨?_, ?_, ?_⟩ <;>
    norm_num [LongTrader.filter_accepts, secSlowNan, secFastNan, qLevel,
      Fl.mean, Fl.asum, Fl.divNat, Fl.amin, Fl.amax, Fl.min2, Fl.max2,
      Fl.add, Fl.sub, Fl.mul, Fl.fmod, qmod, Fl.gt, Fl.lt, Fl.ge, Fl.isnan,
      List.replicate, intraday_cents_to_level]

/-- C10: on every tick the trace first cancels every order still open
from previous ticks, then submits this tick's orders, which become the
only open orders afterwards; the trading logic sees no prior order. -/
theorem cancel_before_trade_C10 (st : AlgoState) :
    (handle_data st).2
      = st.open_orders.map Event.cancel
        ++ ((handle_data st).1.open_orders.map Event.submit)
    ∧ (handle_data st).1.open_orders
        = (handle_data { st with open_orders := [] }).1.open_orders := by
  constructor
  · simp [handle_data]
  · rfl

/-- C8: a long position (positive amount) is flattened by the close step
iff `last_sale_price <= cost_basis - stop_size` or
`last_sale_price >= cost_basis + target_profit`; with cost basis 10.00
and the configured stop 0.05 it closes exactly when the price is at or
below 9.95 (or at the 10.20 profit target). -/
theorem long_close_C8 (p : Position) (hpos : 0 < p.amount) :
    (LongTrader.closeOrders [p] = [Order.mk p.sid 0 none]
        ↔ (p.last_sale_price ≤ p.cost_basis - stop_size
            ∨ p.last_sale_price ≥ p.cost_basis + target_profit))
    ∧ (p.cost_basis = 10 → p.last_sale_price ≤ 199 / 20 →
        LongTrader.closeOrders [p] = [Order.mk p.sid 0 none])
    ∧ (p.cost_basis = 10 → 199 / 20 < p.last_sale_price → p.last_sale_price < 51 / 5 →
        LongTrader.closeOrders [p] = []) := by
  have hneg : ¬ (p.amount < 0) := by omega
  have hfires : LongTrader.closeFires p
      = (decide (p.last_sale_price ≤ p.cost_basis - stop_size)
          || decide (p.last_sale_price ≥ p.cost_basis + target_profit)) := by
    simp [LongTrader.closeFires, hneg]
  have hiff : LongTrader.closeOrders [p] = [Order.mk p.sid 0 none]
      ↔ (p.last_sale_price ≤ p.cost_basis - stop_size
          ∨ p.last_sale_price ≥ p.cost_basis + target_profit) := by
    by_cases hc : (p.last_sale_price ≤ p.cost_basis - stop_size
        ∨ p.last_sale_price ≥ p.cost_basis + target_profit)
    · have ht : LongTrader.closeFires p = true := by
        rw [hfires]
        rcases hc with hc | hc <;> simp [hc]
      simp [LongTrader.closeOrders, List.filter, ht, hc]
    · have hf : LongTrader.closeFires p = false := by
        rw [hfires]
        push_neg at hc
        simp [not_le.mpr hc.1, not_le.mpr hc.2]
      simp [LongTrader.closeOrders, List.filter, hf, hc]
  refine ⟨hiff, ?_, ?_⟩
  · intro hcb hle
    refine hiff.mpr (Or.inl ?_)
    rw [hcb]
    norm_num [stop_size]
    exact hle
  · intro hcb hgt hlttp
    have hnone : ¬ (p.last_sale_price ≤ p.cost_basis - stop_size
        ∨ p.last_sale_price ≥ p.cost_basis + target_profit) := by
      rw [hcb]
      push_neg
      constructor
      · norm_num [stop_size]
        exact hgt
      · norm_num [target_profit]
        exact hlttp
    have hf : LongTrader.closeFires p = false := by
      rw [hfires]
      push_neg at hnone
      simp [not_le.mpr hnone.1, not_le.mpr hnone.2]
    simp [LongTrader.closeOrders, List.filter, hf]

/-- Witness for C8 at a long position with cost basis 10.00 and last
price exactly 9.95. -/
theorem long_close_C8_witness :
    (0 : ℤ) < 100
    ∧ LongTrader.closeOrders [posAt995] = [Order.mk 7 0 none] := by
  refine ⟨by norm_num, ?_⟩
  have h := (long_close_C8 posAt995 (by norm_num [posAt995])).2.1
    (by norm_num [posAt995]) (by norm_num [posAt995])
  simpa [posAt995] using h

/-- Witness for C3 (amended) at a concrete empty state. -/
theorem trade_phase_order_C3_witness :
    LongTrader.trade [] [] 0 true
      = LongTrader.openOrders [] [] 0 ++ LongTrader.closeOrders [] :=
  (trade_phase_order_C3 [] [] 0).1

/-- Witness for C5 at the risk state snapshotted at pnl 0 with cap 100,
evaluated at current pnl -100. -/
theorem risk_halt_C5_witness :
    RiskManager.can_trade (RiskManager.mk 0 100) (-100) = false
    ∧ (RiskManager.process_end_trade_day (RiskManager.mk 0 100) 5).previous_day_risk = 5 :=
  ⟨(risk_halt_C5 (RiskManager.mk 0 100) (-100)).1.mpr (by norm_num),
   (risk_halt_C5 (RiskManager.mk 0 100) 5).2⟩

/-- Witness for C10 at a concrete tick state. -/
theorem cancel_before_trade_C10_witness :
    (handle_data stHalted).2
      = stHalted.open_orders.map Event.cancel
        ++ ((handle_data stHalted).1.open_orders.map Event.submit) :=
  (cancel_before_trade_C10 stHalted).1
